import Mathlib

/-
Verification of mrequests (src/mrequests.py): a bounded-concurrency
orchestration layer over an external HTTP client.

Shallow embedding notes.
The external HTTP transport (requests.Session.request) is a parameter of
type `Transport`; it either returns a `Response` or raises, modelled by
`Outcome`.  Python keyword-argument dictionaries are association lists
(`Dict`) with Python dict assignment/update/lookup semantics.  The
observable side effects of `map` (its return value or the exception it
propagates, plus the sequence of exception_handler invocations) are
collected in `MapRun`; the generator `imap` is modelled as the trace of
events it executes (`ImapEvent`), with `upToYields` giving the prefix of
the trace a consumer who performs a given number of pulls actually runs.
-/

set_option autoImplicit false

namespace MRequests

/-- Python values that can appear in a keyword-argument dictionary.
`vSession` is an opaque session object (requests.Session), `vCallback` an
opaque function object (always truthy), `vDict` a nested dictionary. -/
inductive Val where
  | vNone
  | vBool (b : Bool)
  | vInt (n : Int)
  | vStr (s : String)
  | vSession (id : Nat)
  | vCallback (id : Nat)
  | vDict (entries : List (String × Val))

/-- Python truthiness for `Val` (bool(v)). -/
def Val.truthy : Val → Bool
  | .vNone => false
  | .vBool b => b
  | .vInt n => n != 0
  | .vStr s => s != ""
  | .vSession _ => true
  | .vCallback _ => true
  | .vDict l => !l.isEmpty

/-- A Python dict of keyword arguments, as an association list.  Dicts
built by Python never contain a duplicate key (`dictKeysNodup`). -/
abbrev Dict := List (String × Val)

/-- Python `d[k]`, as an Option (`d.get(k)`). -/
def dictLookup : Dict → String → Option Val
  | [], _ => none
  | (k1, v) :: rest, k => if k1 = k then some v else dictLookup rest k

/-- Python `d[k] = v`: replaces the value at an existing key in place,
otherwise appends the new entry. -/
def dictSet : Dict → String → Val → Dict
  | [], k, v => [(k, v)]
  | (k1, v1) :: rest, k, v =>
      if k1 = k then (k, v) :: rest else (k1, v1) :: dictSet rest k v

/-- Python `d.update(u)`: assigns every entry of `u` into `d` in order. -/
def dictUpdate (d : Dict) (u : Dict) : Dict :=
  u.foldl (fun acc p => dictSet acc p.1 p.2) d

/-- Key removal, as performed by Python `d.pop(k, None)`. -/
def dictRemove (d : Dict) (k : String) : Dict :=
  d.filter (fun p => p.1 != k)

/-- Well-formedness of a Python dict: keys are pairwise distinct. -/
def dictKeysNodup (d : Dict) : Prop := (d.map Prod.fst).Nodup

/-- An HTTP response, as far as the core observes it.  Modelled from the
requests library (external dependency): `bool(response)` is
`response.ok`, which is true exactly when the status code is below 400. -/
structure Response where
  status : Nat
  body : String
  deriving DecidableEq

/-- Truthiness of a requests `Response` object (`response.ok`). -/
def Response.ok (r : Response) : Bool := r.status < 400

/-- Result of one call to the external HTTP transport: it either returns
a response or raises an exception (represented by its message). -/
inductive Outcome where
  | success (r : Response)
  | failure (e : String)

/-- True when the transport call raised. -/
def Outcome.isFailure : Outcome → Bool
  | .success _ => false
  | .failure _ => true

/-- The external HTTP transport: `session.request(method, url, **kwargs)`
abstracted as a function of the method, url and keyword arguments. -/
abbrev Transport := String → String → Dict → Outcome

/-- `AsyncRequest` (mrequests.py line 30): a request descriptor plus the
two outcome slots.  `response = none` models the `self.response = None`
initialisation; `exception = none` models the `exception` attribute not
being set at all (so that reading it raises AttributeError). -/
structure AsyncRequest where
  method : String
  url : String
  session : Val
  kwargs : Dict
  response : Option Response
  exception : Option String

/-- `AsyncRequest.__init__` (mrequests.py lines 40-58): pops `session`
from kwargs (creating a fresh Session, id `freshSession`, when absent or
None), pops `callback`, and if the callback is truthy overwrites
`kwargs['hooks']` with `{'response': callback}`.  Both outcome slots
start unset. -/
def AsyncRequest.init (method url : String) (kwargs : Dict) (freshSession : Nat) :
    AsyncRequest :=
  let sessionVal : Val :=
    match dictLookup kwargs "session" with
    | some Val.vNone => Val.vSession freshSession
    | none => Val.vSession freshSession
    | some v => v
  let k1 := dictRemove kwargs "session"
  let cb := (dictLookup k1 "callback").getD Val.vNone
  let k2 := dictRemove k1 "callback"
  let k3 := if cb.truthy then dictSet k2 "hooks" (Val.vDict [("response", cb)]) else k2
  { method := method, url := url, session := sessionVal, kwargs := k3,
    response := none, exception := none }

/-- The merged keyword arguments built inside `AsyncRequest.send`
(mrequests.py lines 67-69): `merged_kwargs = {}`, then
`merged_kwargs.update(self.kwargs)`, then `merged_kwargs.update(kwargs)`. -/
def mergedKwargs (stored override : Dict) : Dict :=
  dictUpdate (dictUpdate [] stored) override

/-- `AsyncRequest.send` (mrequests.py lines 60-74): merges the stored
kwargs with the call kwargs, invokes the transport, stores the response
on success and the exception object on failure, never re-raises, and
returns `self`. -/
def AsyncRequest.send (u : AsyncRequest) (t : Transport) (kwargs : Dict) :
    AsyncRequest :=
  match t u.method u.url (mergedKwargs u.kwargs kwargs) with
  | Outcome.success r => { u with response := some r }
  | Outcome.failure e => { u with exception := some e }

/-- The kwargs dict passed by the module-level `send` wrapper:
`{stream: stream}`. -/
def streamKw (stream : Bool) : Dict := [("stream", Val.vBool stream)]

/-- Module-level `send(r, stream=False)` (mrequests.py lines 77-78):
`return r.send(stream=stream)`. -/
def send (t : Transport) (r : AsyncRequest) (stream : Bool) : AsyncRequest :=
  AsyncRequest.send r t (streamKw stream)

/-- Python truthiness of the optional `size` argument. -/
def intTruthy : Option Int → Bool
  | none => false
  | some n => n != 0

/-- Modelled from the multiprocessing documentation (external
dependency): `Pool(processes=n)` uses `os.cpu_count()` worker processes
when `n` is None and raises ValueError when `n < 1`.  Returns the worker
count actually used. -/
def poolNew (cpuCount : Nat) (processes : Option Int) : Except String Nat :=
  match processes with
  | none => Except.ok cpuCount
  | some n => if n < 1 then Except.error "ValueError" else Except.ok n.toNat

/-- The pool construction in `map` (mrequests.py line 106):
`pool = Pool(processes=size) if size else Pool()`. -/
def mapPool (cpuCount : Nat) (size : Option Int) : Except String Nat :=
  if intTruthy size then poolNew cpuCount size else poolNew cpuCount none

/-- The classification `if request.response:` (mrequests.py lines 114 and
136): the unit counts as successful exactly when the response slot holds
a truthy response object; returns that response. -/
def successResponse (u : AsyncRequest) : Option Response :=
  match u.response with
  | some r => if r.ok then some r else none
  | none => none

/-- The response stored in a unit, with a dummy default; only read under
a hypothesis that the slot is populated. -/
def responseOf (u : AsyncRequest) : Response :=
  u.response.getD { status := 0, body := "" }

/-- The exception-handler invocation a unit gives rise to in the failure
branch `exception_handler(request, request.exception)` when the handler
is present and the `exception` attribute is set. -/
def failCall (u : AsyncRequest) : Option (AsyncRequest × String) :=
  match successResponse u, u.exception with
  | none, some e => some (u, e)
  | _, _ => none

/-- Observable behaviour of one call to `map`: the value it returns (or
the exception it propagates, as `Except.error`) together with the
sequence of `exception_handler(request, exception)` invocations it
performs, in order. -/
structure MapRun where
  result : Except String (List Response)
  handlerCalls : List (AsyncRequest × String)

/-- The result-collection loop of `map` (mrequests.py lines 111-119):
for each unit in order, append `request.response` when it is truthy;
otherwise, when a handler was supplied, call
`exception_handler(request, request.exception)` — reading the
`exception` attribute raises AttributeError when it was never assigned,
which propagates and aborts the loop (`ret` is discarded).  With no
handler the unit is silently dropped. -/
def collect (hasHandler : Bool) : List AsyncRequest → MapRun
  | [] => { result := Except.ok [], handlerCalls := [] }
  | u :: rest =>
    match successResponse u with
    | some r =>
      let m := collect hasHandler rest
      { result := m.result.map (fun rs => r :: rs), handlerCalls := m.handlerCalls }
    | none =>
      if hasHandler then
        match u.exception with
        | some e =>
          let m := collect hasHandler rest
          { result := m.result, handlerCalls := (u, e) :: m.handlerCalls }
        | none => { result := Except.error "AttributeError", handlerCalls := [] }
      else collect hasHandler rest

/-- `map` (mrequests.py lines 95-119): materialises the input, creates
the pool (line 106; a pool-construction error propagates), executes
`pool.map(partial(send, stream=stream), requests)` — which by the
multiprocessing documentation preserves input order and blocks until all
units complete — and runs the collection loop.  `cpu` is the host CPU
count used by a default-sized pool. -/
def mapRun (t : Transport) (cpu : Nat) (reqs : List AsyncRequest) (stream : Bool)
    (size : Option Int) (hasHandler : Bool) : MapRun :=
  match mapPool cpu size with
  | Except.error e => { result := Except.error e, handlerCalls := [] }
  | Except.ok _ => collect hasHandler (reqs.map (fun r => send t r stream))

/-- One event executed by the `imap` generator body (mrequests.py lines
122-142): yielding a response, invoking the exception handler, the
`pool.close()` and `pool.join()` statements after the loop, or an
exception propagating out of the generator. -/
inductive ImapEvent where
  | yielded (r : Response)
  | handlerCall (u : AsyncRequest) (e : String)
  | poolClose
  | poolJoin
  | raised (msg : String)

/-- True for a `yielded` event. -/
def ImapEvent.isYield : ImapEvent → Bool
  | .yielded _ => true
  | _ => false

/-- True for the teardown events `poolClose` and `poolJoin`. -/
def ImapEvent.isTeardown : ImapEvent → Bool
  | .poolClose => true
  | .poolJoin => true
  | _ => false

/-- The full event trace of the `imap` generator body (mrequests.py
lines 135-142) over the completed units in completion order (an
arbitrary permutation of the dispatched units, since
`pool.imap_unordered` yields in completion order): for each unit, yield
its response when truthy, else call the handler when present (an unset
`exception` attribute makes the generator raise AttributeError and
terminate without teardown); after the loop, `pool.close()` then
`pool.join()`. -/
def imapRun (hasHandler : Bool) : List AsyncRequest → List ImapEvent
  | [] => [ImapEvent.poolClose, ImapEvent.poolJoin]
  | u :: rest =>
    match successResponse u with
    | some r => ImapEvent.yielded r :: imapRun hasHandler rest
    | none =>
      if hasHandler then
        match u.exception with
        | some e => ImapEvent.handlerCall u e :: imapRun hasHandler rest
        | none => [ImapEvent.raised "AttributeError"]
      else imapRun hasHandler rest

/-- The prefix of a generator trace executed by a consumer who performs
`k` pulls and then stops: each pull runs the generator up to and
including its next `yielded` event; code after the last requested yield
(in particular `pool.close()`/`pool.join()`) only runs if the consumer
keeps pulling past the final yield. -/
def upToYields : Nat → List ImapEvent → List ImapEvent
  | _, [] => []
  | 0, _ :: _ => []
  | k + 1, ImapEvent.yielded r :: rest => ImapEvent.yielded r :: upToYields k rest
  | k + 1, e :: rest => e :: upToYields (k + 1) rest

/-- Number of responses a full trace yields. -/
def countYields (evs : List ImapEvent) : Nat := evs.countP ImapEvent.isYield

/-- The exception-handler invocations appearing in a trace, in order. -/
def traceHandlerCalls (evs : List ImapEvent) : List (AsyncRequest × String) :=
  evs.filterMap (fun e =>
    match e with
    | ImapEvent.handlerCall u ex => some (u, ex)
    | _ => none)

/-- Transport in which every request succeeds with a 200 response. -/
def tOk : Transport := fun _ _ _ => Outcome.success { status := 200, body := "ok" }

/-- Transport in which every request succeeds with a 404 response — a
transport-level success whose Response object is falsy. -/
def t404 : Transport := fun _ _ _ => Outcome.success { status := 404, body := "not found" }

/-- Transport in which every request succeeds with a 500 response. -/
def t500 : Transport := fun _ _ _ => Outcome.success { status := 500, body := "server error" }

/-- Transport in which every request raises. -/
def tFail : Transport := fun _ _ _ => Outcome.failure "boom"

/-- Transport raising exactly on the url "http://fail" and otherwise
succeeding with a falsy 404 response. -/
def tMix : Transport := fun _ url _ =>
  if url = "http://fail" then Outcome.failure "boom"
  else Outcome.success { status := 404, body := "not found" }

/-- Transport raising exactly on the url "http://fail" and otherwise
succeeding with a truthy 200 response. -/
def tMixOk : Transport := fun _ url _ =>
  if url = "http://fail" then Outcome.failure "boom"
  else Outcome.success { status := 200, body := "ok" }

/-- A concrete request descriptor. -/
def reqA : AsyncRequest := AsyncRequest.init "GET" "http://a" [] 0

/-- A second concrete request descriptor. -/
def reqB : AsyncRequest := AsyncRequest.init "GET" "http://b" [] 1

/-- A concrete request descriptor aimed at the failing url of `tMix`. -/
def reqFail : AsyncRequest := AsyncRequest.init "GET" "http://fail" [] 2

/-- Assignment makes the assigned key map to the assigned value. -/
theorem dictLookup_dictSet_self (d : Dict) (k : String) (v : Val) :
    dictLookup (dictSet d k v) k = some v := by
  induction d with
  | nil => simp [dictSet, dictLookup]
  | cons p rest ih =>
    obtain ⟨k1, v1⟩ := p
    by_cases h : k1 = k
    · subst h
      simp [dictSet, dictLookup]
    · simp [dictSet, dictLookup, h, ih]

/-- Assignment leaves the value of every other key unchanged. -/
theorem dictLookup_dictSet_ne (d : Dict) (k : String) (v : Val) (k2 : String)
    (h : k2 ≠ k) : dictLookup (dictSet d k v) k2 = dictLookup d k2 := by
  have hkk2 : ¬ (k = k2) := fun he => h he.symm
  induction d with
  | nil => simp [dictSet, dictLookup, hkk2]
  | cons p rest ih =>
    obtain ⟨k1, v1⟩ := p
    by_cases h1 : k1 = k
    · subst h1
      simp [dictSet, dictLookup, hkk2]
    · simp [dictSet, dictLookup, h1, ih]

/-- Assigning a key absent from the dict appends the entry. -/
theorem dictSet_of_forall_ne (d : Dict) (k : String) (v : Val)
    (h : ∀ p ∈ d, p.1 ≠ k) : dictSet d k v = d ++ [(k, v)] := by
  induction d with
  | nil => rfl
  | cons p rest ih =>
    obtain ⟨k1, v1⟩ := p
    have hk1 : k1 ≠ k := h (k1, v1) (by simp)
    simp [dictSet, hk1]
    exact ih (fun q hq => h q (by simp [hq]))

/-- Updating from a dict whose keys are fresh and pairwise distinct is
concatenation. -/
theorem dictUpdate_eq_append (d : Dict) (acc : Dict)
    (hd : dictKeysNodup d) (hdisj : ∀ p ∈ d, ∀ q ∈ acc, q.1 ≠ p.1) :
    dictUpdate acc d = acc ++ d := by
  induction d generalizing acc with
  | nil => simp [dictUpdate]
  | cons p rest ih =>
    have hnd : p.1 ∉ rest.map Prod.fst ∧ dictKeysNodup rest := by
      simpa [dictKeysNodup, List.nodup_cons] using hd
    have hset : dictSet acc p.1 p.2 = acc ++ [p] := by
      rw [dictSet_of_forall_ne acc p.1 p.2 (fun q hq => hdisj p (by simp) q hq)]
    have hstep : dictUpdate acc (p :: rest) = dictUpdate (acc ++ [p]) rest := by
      simp [dictUpdate, hset]
    have hdisj2 : ∀ p2 ∈ rest, ∀ q ∈ acc ++ [p], q.1 ≠ p2.1 := by
      intro p2 hp2 q hq
      rcases List.mem_append.mp hq with hq1 | hq1
      · exact hdisj p2 (by simp [hp2]) q hq1
      · have hq2 : q = p := by simpa using hq1
        subst hq2
        intro he
        exact hnd.1 (List.mem_map.mpr ⟨p2, hp2, he.symm⟩)
    rw [hstep, ih (acc ++ [p]) hnd.2 hdisj2]
    simp

/-- Updating the empty dict from a well-formed dict reproduces it
(mrequests.py line 68: `merged_kwargs.update(self.kwargs)`). -/
theorem dictUpdate_nil (d : Dict) (hd : dictKeysNodup d) :
    dictUpdate [] d = d := by
  simpa using dictUpdate_eq_append d [] hd (by simp)

/-- Removal of one key leaves the lookup of every other key unchanged. -/
theorem dictLookup_dictRemove_ne (d : Dict) (k : String) (k2 : String)
    (h : k2 ≠ k) : dictLookup (dictRemove d k) k2 = dictLookup d k2 := by
  induction d with
  | nil => rfl
  | cons p rest ih =>
    obtain ⟨k1, v1⟩ := p
    by_cases h1 : k1 = k
    · have hh : (k1 != k) = false := by simp [h1]
      have hstep : dictRemove ((k1, v1) :: rest) k = dictRemove rest k := by
        simp [dictRemove, List.filter, hh]
      have hk1k2 : ¬ (k1 = k2) := fun he => h (he.symm.trans h1)
      rw [hstep, ih]
      simp [dictLookup, hk1k2]
    · have hh : (k1 != k) = true := by simp [h1]
      have hstep : dictRemove ((k1, v1) :: rest) k = (k1, v1) :: dictRemove rest k := by
        simp [dictRemove, List.filter, hh]
      rw [hstep]
      by_cases h2 : k1 = k2
      · simp [dictLookup, h2]
      · simp [dictLookup, h2, ih]

/-- A unit whose response slot is empty after `send` took the failure
branch, so its exception slot is populated. -/
theorem send_response_none_exception (t : Transport) (u : AsyncRequest) (stream : Bool)
    (hresp : (send t u stream).response = none) :
    ∃ e, (send t u stream).exception = some e := by
  cases ht : t u.method u.url (mergedKwargs u.kwargs (streamKw stream)) with
  | success r =>
    exfalso
    have : (send t u stream).response = some r := by
      simp [send, AsyncRequest.send, ht]
    rw [this] at hresp
    exact Option.noConfusion hresp
  | failure e =>
    refine ⟨e, ?_⟩
    simp [send, AsyncRequest.send, ht]

/-- When every populated response of a sent unit is truthy, a unit that
fails the `if request.response:` test has its exception slot populated. -/
theorem sent_clean (t : Transport) (u : AsyncRequest) (stream : Bool)
    (hok : ∀ r, (send t u stream).response = some r → r.ok = true) :
    successResponse (send t u stream) = none → (send t u stream).exception ≠ none := by
  intro hsr
  cases hresp : (send t u stream).response with
  | some r =>
    exfalso
    have hr := hok r hresp
    rw [successResponse, hresp] at hsr
    simp [hr] at hsr
  | none =>
    obtain ⟨e, he⟩ := send_response_none_exception t u stream hresp
    rw [he]
    exact Option.noConfusion

/-- Collection over units that all carry truthy responses returns every
response in order and never touches the handler. -/
theorem collect_success (hh : Bool) (units : List AsyncRequest)
    (h : ∀ u ∈ units, ∃ r, u.response = some r ∧ r.ok = true) :
    collect hh units =
      { result := Except.ok (units.map responseOf), handlerCalls := [] } := by
  induction units with
  | nil => rfl
  | cons u rest ih =>
    obtain ⟨r, hr, hok⟩ := h u (by simp)
    have hsr : successResponse u = some r := by simp [successResponse, hr, hok]
    have ihh := ih (fun u2 hu2 => h u2 (by simp [hu2]))
    have hro : responseOf u = r := by simp [responseOf, hr]
    simp [collect, hsr, ihh, Except.map, hro]

/-- Collection with no handler silently keeps exactly the units passing
the truthiness test, in order. -/
theorem collect_noHandler (units : List AsyncRequest) :
    collect false units =
      { result := Except.ok (units.filterMap successResponse), handlerCalls := [] } := by
  induction units with
  | nil => rfl
  | cons u rest ih =>
    cases hsr : successResponse u with
    | some r => simp [collect, hsr, ih, List.filterMap_cons, Except.map]
    | none => simp [collect, hsr, ih, List.filterMap_cons]

/-- Collection with a handler, over units whose exception slot is
populated whenever the truthiness test fails, returns the truthy
responses in order and calls the handler once per failing unit with that
unit and its stored exception, in order. -/
theorem collect_handler (units : List AsyncRequest)
    (h : ∀ u ∈ units, successResponse u = none → u.exception ≠ none) :
    collect true units =
      { result := Except.ok (units.filterMap successResponse),
        handlerCalls := units.filterMap failCall } := by
  induction units with
  | nil => rfl
  | cons u rest ih =>
    have ih2 := ih (fun u2 h2 => h u2 (by simp [h2]))
    cases hsr : successResponse u with
    | some r =>
      have hfc : failCall u = none := by simp [failCall, hsr]
      simp [collect, hsr, ih2, hfc, List.filterMap_cons, Except.map]
    | none =>
      cases hx : u.exception with
      | none => exact absurd hx (h u (by simp) hsr)
      | some e =>
        have hfc : failCall u = some (u, e) := by simp [failCall, hsr, hx]
        simp [collect, hsr, hx, ih2, hfc, List.filterMap_cons]

/-- When every populated response is truthy, the kept responses and the
units with an empty response slot partition the input. -/
theorem length_filterMap_add_countP (units : List AsyncRequest)
    (h : ∀ u ∈ units, ∀ r, u.response = some r → r.ok = true) :
    (units.filterMap successResponse).length
      + units.countP (fun u => u.response.isNone) = units.length := by
  induction units with
  | nil => rfl
  | cons u rest ih =>
    have ih2 := ih (fun x hx => h x (by simp [hx]))
    cases hr : u.response with
    | some r =>
      have hok := h u (by simp) r hr
      have hsr : successResponse u = some r := by simp [successResponse, hr, hok]
      simp [List.filterMap_cons, hsr, List.countP_cons, hr]
      omega
    | none =>
      have hsr : successResponse u = none := by simp [successResponse, hr]
      simp [List.filterMap_cons, hsr, List.countP_cons, hr]
      omega

/-- A freshly-constructed unit ends up with an empty response slot after
`send` exactly when the transport call raised. -/
theorem sent_response_isNone (t : Transport) (u : AsyncRequest) (stream : Bool)
    (hfresh : u.response = none) :
    (send t u stream).response.isNone
      = (t u.method u.url (mergedKwargs u.kwargs (streamKw stream))).isFailure := by
  cases ht : t u.method u.url (mergedKwargs u.kwargs (streamKw stream)) with
  | success r => simp [send, AsyncRequest.send, ht, Outcome.isFailure]
  | failure e => simp [send, AsyncRequest.send, ht, Outcome.isFailure, hfresh]

/-- Over fresh descriptors, counting empty response slots after dispatch
counts exactly the transport failures. -/
theorem countP_sent_isNone (t : Transport) (stream : Bool) (reqs : List AsyncRequest)
    (hfresh : ∀ u ∈ reqs, u.response = none) :
    (reqs.map (fun r => send t r stream)).countP (fun u => u.response.isNone)
      = reqs.countP (fun u =>
          (t u.method u.url (mergedKwargs u.kwargs (streamKw stream))).isFailure) := by
  induction reqs with
  | nil => rfl
  | cons u rest ih =>
    have ih2 := ih (fun x hx => hfresh x (by simp [hx]))
    have hu := sent_response_isNone t u stream (hfresh u (by simp))
    simp [List.countP_cons, ih2, hu]

/-- When every populated response is truthy and every failing unit has a
stored exception, the number of would-be handler invocations equals the
number of units with an empty response slot. -/
theorem length_filterMap_failCall (units : List AsyncRequest)
    (h : ∀ u ∈ units, successResponse u = none → u.exception ≠ none)
    (h2 : ∀ u ∈ units, ∀ r, u.response = some r → r.ok = true) :
    (units.filterMap failCall).length
      = units.countP (fun u => u.response.isNone) := by
  induction units with
  | nil => rfl
  | cons u rest ih =>
    have ihh := ih (fun x hx => h x (by simp [hx])) (fun x hx => h2 x (by simp [hx]))
    cases hr : u.response with
    | some r =>
      have hok := h2 u (by simp) r hr
      have hsr : successResponse u = some r := by simp [successResponse, hr, hok]
      have hfc : failCall u = none := by simp [failCall, hsr]
      simp [List.filterMap_cons, hfc, List.countP_cons, hr, ihh]
    | none =>
      have hsr : successResponse u = none := by simp [successResponse, hr]
      cases hx : u.exception with
      | none => exact absurd hx (h u (by simp) hsr)
      | some e =>
        have hfc : failCall u = some (u, e) := by simp [failCall, hsr, hx]
        simp [List.filterMap_cons, hfc, List.countP_cons, hr, ihh]

/-- Handler events of a trace starting with a yield. -/
theorem traceHandlerCalls_cons_yielded (r : Response) (evs : List ImapEvent) :
    traceHandlerCalls (ImapEvent.yielded r :: evs) = traceHandlerCalls evs := by
  simp [traceHandlerCalls, List.filterMap_cons]

/-- Handler events of a trace starting with a handler invocation. -/
theorem traceHandlerCalls_cons_handlerCall (u : AsyncRequest) (e : String)
    (evs : List ImapEvent) :
    traceHandlerCalls (ImapEvent.handlerCall u e :: evs)
      = (u, e) :: traceHandlerCalls evs := by
  simp [traceHandlerCalls, List.filterMap_cons]

/-- The `imap` generator with a handler, over units whose exception slot
is populated whenever the truthiness test fails, performs exactly the
would-be handler invocations, in completion order. -/
theorem imap_handlerCalls (units : List AsyncRequest)
    (h : ∀ u ∈ units, successResponse u = none → u.exception ≠ none) :
    traceHandlerCalls (imapRun true units) = units.filterMap failCall := by
  induction units with
  | nil => rfl
  | cons u rest ih =>
    have ih2 := ih (fun x hx => h x (by simp [hx]))
    cases hsr : successResponse u with
    | some r =>
      have hfc : failCall u = none := by simp [failCall, hsr]
      have hstep : imapRun true (u :: rest) = ImapEvent.yielded r :: imapRun true rest := by
        simp [imapRun, hsr]
      rw [hstep, traceHandlerCalls_cons_yielded, ih2, List.filterMap_cons, hfc]
    | none =>
      cases hx : u.exception with
      | none => exact absurd hx (h u (by simp) hsr)
      | some e =>
        have hfc : failCall u = some (u, e) := by simp [failCall, hsr, hx]
        have hstep : imapRun true (u :: rest)
            = ImapEvent.handlerCall u e :: imapRun true rest := by
          simp [imapRun, hsr, hx]
        rw [hstep, traceHandlerCalls_cons_handlerCall, ih2, List.filterMap_cons, hfc]

/-- A full run of the `imap` generator body over units whose exception
slot is populated whenever the truthiness test fails ends with
`pool.close()` then `pool.join()`, and no teardown happens earlier. -/
theorem imapRun_split (hh : Bool) (units : List AsyncRequest)
    (h : ∀ u ∈ units, successResponse u = none → u.exception ≠ none) :
    ∃ evs, imapRun hh units = evs ++ [ImapEvent.poolClose, ImapEvent.poolJoin] ∧
      evs.all (fun e => !e.isTeardown) = true := by
  induction units with
  | nil => exact ⟨[], rfl, rfl⟩
  | cons u rest ih =>
    obtain ⟨evs, hevs, hfree⟩ := ih (fun x hx => h x (by simp [hx]))
    cases hsr : successResponse u with
    | some r =>
      refine ⟨ImapEvent.yielded r :: evs, ?_, ?_⟩
      · simp [imapRun, hsr, hevs]
      · rw [List.all_cons, hfree]
        rfl
    | none =>
      cases hh with
      | false =>
        refine ⟨evs, ?_, hfree⟩
        simp [imapRun, hsr, hevs]
      | true =>
        cases hx : u.exception with
        | none => exact absurd hx (h u (by simp) hsr)
        | some e =>
          refine ⟨ImapEvent.handlerCall u e :: evs, ?_, ?_⟩
          · simp [imapRun, hsr, hx, hevs]
          · rw [List.all_cons, hfree]
            rfl

/-- Empty trace is exhausted by any number of pulls. -/
theorem upToYields_nil (k : Nat) : upToYields k [] = [] := by cases k <;> rfl

/-- A consumer who never pulls runs no generator code. -/
theorem upToYields_zero (e : ImapEvent) (rest : List ImapEvent) :
    upToYields 0 (e :: rest) = [] := rfl

/-- Pulling across a yield consumes one pull. -/
theorem upToYields_succ_yielded (k : Nat) (r : Response) (rest : List ImapEvent) :
    upToYields (k + 1) (ImapEvent.yielded r :: rest)
      = ImapEvent.yielded r :: upToYields k rest := rfl

/-- A handler invocation runs within the current pull. -/
theorem upToYields_succ_handlerCall (k : Nat) (u : AsyncRequest) (e : String)
    (rest : List ImapEvent) :
    upToYields (k + 1) (ImapEvent.handlerCall u e :: rest)
      = ImapEvent.handlerCall u e :: upToYields (k + 1) rest := rfl

/-- Teardown runs within the current pull. -/
theorem upToYields_succ_poolClose (k : Nat) (rest : List ImapEvent) :
    upToYields (k + 1) (ImapEvent.poolClose :: rest)
      = ImapEvent.poolClose :: upToYields (k + 1) rest := rfl

/-- Teardown runs within the current pull. -/
theorem upToYields_succ_poolJoin (k : Nat) (rest : List ImapEvent) :
    upToYields (k + 1) (ImapEvent.poolJoin :: rest)
      = ImapEvent.poolJoin :: upToYields (k + 1) rest := rfl

/-- A raised exception surfaces within the current pull. -/
theorem upToYields_succ_raised (k : Nat) (m : String) (rest : List ImapEvent) :
    upToYields (k + 1) (ImapEvent.raised m :: rest)
      = ImapEvent.raised m :: upToYields (k + 1) rest := rfl

/-- A consumer who pulls more often than the trace yields runs the whole
generator body. -/
theorem upToYields_of_countYields_lt (evs : List ImapEvent) :
    ∀ k, countYields evs < k → upToYields k evs = evs := by
  induction evs with
  | nil => intro k _; exact upToYields_nil k
  | cons e rest ih =>
    intro k hk
    cases k with
    | zero => exact absurd hk (Nat.not_lt_zero _)
    | succ k2 =>
      cases e with
      | yielded r =>
        have h2 : countYields rest < k2 := by
          simp [countYields, List.countP_cons, ImapEvent.isYield] at hk ⊢
          omega
        rw [upToYields_succ_yielded, ih k2 h2]
      | handlerCall u ex =>
        have h2 : countYields rest < k2 + 1 := by
          simpa [countYields, List.countP_cons, ImapEvent.isYield] using hk
        rw [upToYields_succ_handlerCall, ih (k2 + 1) h2]
      | poolClose =>
        have h2 : countYields rest < k2 + 1 := by
          simpa [countYields, List.countP_cons, ImapEvent.isYield] using hk
        rw [upToYields_succ_poolClose, ih (k2 + 1) h2]
      | poolJoin =>
        have h2 : countYields rest < k2 + 1 := by
          simpa [countYields, List.countP_cons, ImapEvent.isYield] using hk
        rw [upToYields_succ_poolJoin, ih (k2 + 1) h2]
      | raised m =>
        have h2 : countYields rest < k2 + 1 := by
          simpa [countYields, List.countP_cons, ImapEvent.isYield] using hk
        rw [upToYields_succ_raised, ih (k2 + 1) h2]

/-- A consumer who stops before the yields of the teardown-free part of
a trace are exhausted never runs a teardown event. -/
theorem upToYields_teardown_free (evs tail : List ImapEvent) :
    ∀ k, evs.all (fun e => !e.isTeardown) = true → k < countYields evs →
      (upToYields k (evs ++ tail)).all (fun e => !e.isTeardown) = true := by
  induction evs with
  | nil =>
    intro k _ hk
    simp [countYields] at hk
  | cons e rest ih =>
    intro k hfree hk
    have hfree2 : (!e.isTeardown) = true ∧ rest.all (fun x => !x.isTeardown) = true := by
      simpa [List.all_cons] using hfree
    cases k with
    | zero =>
      rw [List.cons_append, upToYields_zero]
      rfl
    | succ k2 =>
      cases e with
      | yielded r =>
        have hk2 : k2 < countYields rest := by
          simp [countYields, List.countP_cons, ImapEvent.isYield] at hk ⊢
          omega
        rw [List.cons_append, upToYields_succ_yielded, List.all_cons, ih k2 hfree2.2 hk2]
        rfl
      | handlerCall u ex =>
        have hk2 : k2 + 1 < countYields rest := by
          simpa [countYields, List.countP_cons, ImapEvent.isYield] using hk
        rw [List.cons_append, upToYields_succ_handlerCall, List.all_cons,
          ih (k2 + 1) hfree2.2 hk2]
        rfl
      | poolClose => simp [ImapEvent.isTeardown] at hfree2
      | poolJoin => simp [ImapEvent.isTeardown] at hfree2
      | raised m =>
        have hk2 : k2 + 1 < countYields rest := by
          simpa [countYields, List.countP_cons, ImapEvent.isYield] using hk
        rw [List.cons_append, upToYields_succ_raised, List.all_cons, ih (k2 + 1) hfree2.2 hk2]
        rfl

/-- C4: for every execution unit and every exception raised by the
transport call, `send` captures the exception object into the unit's
failure slot, does not re-raise it (the model of `send` is total: it
always returns a unit instead of propagating an error), leaves the
response slot unpopulated, and returns the unit itself — the same object
with method, url, kwargs and session intact, differing only in the
exception slot. -/
theorem c4_send_failure (t : Transport) (u : AsyncRequest) (kw : Dict) (e : String)
    (hfresh : u.response = none)
    (hfail : t u.method u.url (mergedKwargs u.kwargs kw) = Outcome.failure e) :
    AsyncRequest.send u t kw = { u with exception := some e } ∧
    (AsyncRequest.send u t kw).response = none := by
  have h1 : AsyncRequest.send u t kw = { u with exception := some e } := by
    simp [AsyncRequest.send, hfail]
  refine ⟨h1, ?_⟩
  rw [h1]
  exact hfresh

/-- Witness for C4 at a concrete failing transport and fresh unit. -/
theorem c4_send_failure_witness :
    AsyncRequest.send reqA tFail [] = { reqA with exception := some "boom" } ∧
    (AsyncRequest.send reqA tFail []).response = none :=
  c4_send_failure tFail reqA [] "boom" rfl rfl

/-- C5: for every fresh execution unit (both outcome slots unset, as
after `__init__`), after `send` completes exactly one of the two outcome
slots is populated and never both — the response slot on transport
success, the captured failure slot on a raised exception. -/
theorem c5_slots_exclusive (t : Transport) (u : AsyncRequest) (kw : Dict)
    (h1 : u.response = none) (h2 : u.exception = none) :
    ((AsyncRequest.send u t kw).response.isSome = true ∧
      (AsyncRequest.send u t kw).exception = none) ∨
    ((AsyncRequest.send u t kw).response = none ∧
      (AsyncRequest.send u t kw).exception.isSome = true) := by
  cases ht : t u.method u.url (mergedKwargs u.kwargs kw) with
  | success r =>
    left
    constructor
    · simp [AsyncRequest.send, ht]
    · simp [AsyncRequest.send, ht, h2]
  | failure e =>
    right
    constructor
    · simp [AsyncRequest.send, ht, h1]
    · simp [AsyncRequest.send, ht]

/-- Witness for C5 at a concrete succeeding transport and fresh unit. -/
theorem c5_slots_exclusive_witness :
    ((AsyncRequest.send reqB tOk []).response.isSome = true ∧
      (AsyncRequest.send reqB tOk []).exception = none) ∨
    ((AsyncRequest.send reqB tOk []).response = none ∧
      (AsyncRequest.send reqB tOk []).exception.isSome = true) :=
  c5_slots_exclusive tOk reqB [] rfl rfl

/-- C8: for a stored options dict (well-formed: no duplicate keys, as
Python dicts are) containing a value for the "stream" key, the merged
kwargs that `send(stream=...)` passes to the transport call map "stream"
to the override value — the override wins the conflict — while every
other stored key keeps exactly its stored value. -/
theorem c8_merge_override (stored : Dict) (b : Bool) (v : Val)
    (hnd : dictKeysNodup stored)
    (hs : dictLookup stored "stream" = some v) :
    dictLookup (mergedKwargs stored (streamKw b)) "stream" = some (Val.vBool b) ∧
    ∀ k, k ≠ "stream" →
      dictLookup (mergedKwargs stored (streamKw b)) k = dictLookup stored k := by
  have h0 : dictUpdate [] stored = stored := dictUpdate_nil stored hnd
  have hm : mergedKwargs stored (streamKw b) = dictSet stored "stream" (Val.vBool b) := by
    show dictUpdate (dictUpdate [] stored) (streamKw b) = _
    rw [h0]
    rfl
  constructor
  · rw [hm]
    exact dictLookup_dictSet_self stored "stream" (Val.vBool b)
  · intro k hk
    rw [hm]
    exact dictLookup_dictSet_ne stored "stream" (Val.vBool b) k hk

/-- Witness for C8 at a concrete stored dict holding a stream flag and a
timeout. -/
theorem c8_merge_override_witness :
    dictLookup (mergedKwargs [("timeout", Val.vInt 5), ("stream", Val.vBool true)]
        (streamKw false)) "stream" = some (Val.vBool false) ∧
    dictLookup (mergedKwargs [("timeout", Val.vInt 5), ("stream", Val.vBool true)]
        (streamKw false)) "timeout" = some (Val.vInt 5) := by
  have h := c8_merge_override [("timeout", Val.vInt 5), ("stream", Val.vBool true)]
    false (Val.vBool true) (by unfold dictKeysNodup; decide) rfl
  exact ⟨h.1, h.2 "timeout" (by decide)⟩

/-- C10: the constructor pops `callback` from the options; a truthy
callback makes it overwrite any caller-supplied "hooks" entry with the
dict containing exactly the response hook (discarding the caller's
hooks), while a falsy callback leaves the "hooks" entry of the options
exactly as the caller supplied it and installs nothing. -/
theorem c10_callback_hooks (m u : String) (kwargs : Dict) (s : Nat) (cb : Val) :
    (dictLookup kwargs "callback" = some cb → cb.truthy = true →
      dictLookup (AsyncRequest.init m u kwargs s).kwargs "hooks"
        = some (Val.vDict [("response", cb)])) ∧
    (((dictLookup kwargs "callback").getD Val.vNone).truthy = false →
      dictLookup (AsyncRequest.init m u kwargs s).kwargs "hooks"
        = dictLookup kwargs "hooks") := by
  have hsc : dictLookup (dictRemove kwargs "session") "callback"
      = dictLookup kwargs "callback" :=
    dictLookup_dictRemove_ne kwargs "session" "callback" (by decide)
  constructor
  · intro hcb htr
    have hget : (dictLookup (dictRemove kwargs "session") "callback").getD Val.vNone = cb := by
      rw [hsc, hcb]
      rfl
    simp only [AsyncRequest.init, hget, htr, if_true]
    exact dictLookup_dictSet_self _ "hooks" (Val.vDict [("response", cb)])
  · intro hfalsy
    have h2 : ((dictLookup (dictRemove kwargs "session") "callback").getD Val.vNone).truthy
        = false := by
      rw [hsc]
      exact hfalsy
    have hrm : dictLookup (dictRemove (dictRemove kwargs "session") "callback") "hooks"
        = dictLookup kwargs "hooks" := by
      rw [dictLookup_dictRemove_ne _ "callback" "hooks" (by decide),
        dictLookup_dictRemove_ne _ "session" "hooks" (by decide)]
    simp only [AsyncRequest.init, h2, Bool.false_eq_true, if_false]
    exact hrm

/-- Witness for C10: a truthy callback replaces the caller's own hooks
entry. -/
theorem c10_callback_hooks_witness :
    dictLookup (AsyncRequest.init "GET" "http://w"
        [("hooks", Val.vStr "mine"), ("callback", Val.vCallback 7)] 0).kwargs "hooks"
      = some (Val.vDict [("response", Val.vCallback 7)]) :=
  (c10_callback_hooks "GET" "http://w"
    [("hooks", Val.vStr "mine"), ("callback", Val.vCallback 7)] 0 (Val.vCallback 7)).1
    rfl rfl

/-- C1 counterexample: a single request whose execution succeeds with no
transport exception (the response slot is populated, the exception slot
is not), yet `map` returns the empty list — 0 responses instead of
N = 1 — because the 404 response object is falsy under
`if request.response:`. -/
theorem c1_counterexample :
    (send t404 reqA false).response = some { status := 404, body := "not found" } ∧
    (send t404 reqA false).exception = none ∧
    (mapRun t404 4 [reqA] false none false).result = Except.ok [] ∧
    ([] : List Response).length ≠ [reqA].length :=
  ⟨rfl, rfl, rfl, by decide⟩

/-- C1 amended: for every finite sequence of request descriptors D of
length N in which every execution succeeds with a truthy response object
(HTTP status below 400), `map(D)` returns a sequence of exactly N
responses in the same order as D, and the exception handler is never
invoked. -/
theorem c1_amended (t : Transport) (cpu : Nat) (reqs : List AsyncRequest) (stream : Bool)
    (size : Option Int) (hh : Bool)
    (hpool : ∃ n, mapPool cpu size = Except.ok n)
    (hsucc : ∀ u ∈ reqs, ∃ r, (send t u stream).response = some r ∧ r.ok = true) :
    (mapRun t cpu reqs stream size hh).result
      = Except.ok (reqs.map (fun u => responseOf (send t u stream))) ∧
    (mapRun t cpu reqs stream size hh).handlerCalls = [] := by
  obtain ⟨n, hn⟩ := hpool
  have hunits : ∀ u2 ∈ reqs.map (fun r => send t r stream),
      ∃ r2, u2.response = some r2 ∧ r2.ok = true := by
    intro u2 hu2
    obtain ⟨u, hu, rfl⟩ := List.mem_map.mp hu2
    exact hsucc u hu
  have hc := collect_success hh (reqs.map (fun r => send t r stream)) hunits
  have hm : mapRun t cpu reqs stream size hh
      = collect hh (reqs.map (fun r => send t r stream)) := by
    simp [mapRun, hn]
  rw [hm, hc]
  exact ⟨by simp [List.map_map], rfl⟩

/-- Witness for amended C1: one always-succeeding truthy request. -/
theorem c1_amended_witness :
    (mapRun tOk 4 [reqA] false none false).result
      = Except.ok ([reqA].map (fun u => responseOf (send tOk u false))) ∧
    (mapRun tOk 4 [reqA] false none false).handlerCalls = [] :=
  c1_amended tOk 4 [reqA] false none false ⟨4, rfl⟩
    (by
      intro u hu
      rw [List.mem_singleton] at hu
      subst hu
      exact ⟨{ status := 200, body := "ok" }, rfl, rfl⟩)

/-- C2 counterexample: one request, zero transport exceptions (K = 0,
the exception slot stays unset), no handler — yet `map` returns 0
responses instead of N − K = 1, because the falsy 500 response is
silently dropped. -/
theorem c2_counterexample :
    (send t500 reqB false).response = some { status := 500, body := "server error" } ∧
    (send t500 reqB false).exception = none ∧
    (mapRun t500 4 [reqB] false none false).result = Except.ok [] ∧
    (mapRun t500 4 [reqB] false none false).handlerCalls = [] ∧
    ([] : List Response).length ≠ [reqB].length :=
  ⟨rfl, rfl, rfl, rfl, by decide⟩

/-- C2 amended: with no handler, `map` over fresh descriptors returns
exactly the responses of the units passing the truthiness test, in
their relative input order, and no exception propagates (the result is
an `ok` value and there are no handler calls); when additionally every
successful response object is truthy, the returned length is exactly
N − K, with K the number of descriptors whose transport call raised. -/
theorem c2_amended (t : Transport) (cpu : Nat) (reqs : List AsyncRequest) (stream : Bool)
    (size : Option Int)
    (hpool : ∃ n, mapPool cpu size = Except.ok n)
    (hfresh : ∀ u ∈ reqs, u.response = none)
    (htruthy : ∀ u ∈ reqs, ∀ r, (send t u stream).response = some r → r.ok = true) :
    (mapRun t cpu reqs stream size false).result
      = Except.ok ((reqs.map (fun r => send t r stream)).filterMap successResponse) ∧
    (mapRun t cpu reqs stream size false).handlerCalls = [] ∧
    ((reqs.map (fun r => send t r stream)).filterMap successResponse).length
      = reqs.length
        - reqs.countP (fun u =>
            (t u.method u.url (mergedKwargs u.kwargs (streamKw stream))).isFailure) := by
  obtain ⟨n, hn⟩ := hpool
  have hm : mapRun t cpu reqs stream size false
      = collect false (reqs.map (fun r => send t r stream)) := by
    simp [mapRun, hn]
  have hc := collect_noHandler (reqs.map (fun r => send t r stream))
  have hunits : ∀ u2 ∈ reqs.map (fun r => send t r stream),
      ∀ r2, u2.response = some r2 → r2.ok = true := by
    intro u2 hu2
    obtain ⟨u, hu, rfl⟩ := List.mem_map.mp hu2
    exact htruthy u hu
  have hlen := length_filterMap_add_countP (reqs.map (fun r => send t r stream)) hunits
  have hK := countP_sent_isNone t stream reqs hfresh
  refine ⟨?_, ?_, ?_⟩
  · rw [hm, hc]
  · rw [hm, hc]
  · rw [← hK]
    have hlen2 : (reqs.map (fun r => send t r stream)).length = reqs.length := by simp
    omega

/-- Witness for amended C2: one succeeding truthy request and one
request whose transport call raises; the returned length is 2 − 1. -/
theorem c2_amended_witness :
    (mapRun tMixOk 4 [reqA, reqFail] false none false).result
      = Except.ok (([reqA, reqFail].map (fun r => send tMixOk r false)).filterMap
          successResponse) ∧
    (mapRun tMixOk 4 [reqA, reqFail] false none false).handlerCalls = [] ∧
    (([reqA, reqFail].map (fun r => send tMixOk r false)).filterMap successResponse).length
      = [reqA, reqFail].length
        - [reqA, reqFail].countP (fun u =>
            (tMixOk u.method u.url (mergedKwargs u.kwargs (streamKw false))).isFailure) :=
  c2_amended tMixOk 4 [reqA, reqFail] false none ⟨4, rfl⟩
    (by
      intro u hu
      simp only [List.mem_cons, List.not_mem_nil, or_false] at hu
      rcases hu with rfl | rfl
      · rfl
      · rfl)
    (by
      intro u hu r hr
      simp only [List.mem_cons, List.not_mem_nil, or_false] at hu
      rcases hu with rfl | rfl
      · rw [show (send tMixOk reqA false).response
            = some { status := 200, body := "ok" } from rfl] at hr
        injection hr with h2
        subst h2
        rfl
      · rw [show (send tMixOk reqFail false).response = none from rfl] at hr
        exact Option.noConfusion hr)

/-- C7 counterexample: `map` called with size = −1 does not create a
default CPU-sized pool; `Pool(processes=-1)` raises ValueError because
−1 is truthy in `Pool(processes=size) if size else Pool()`. -/
theorem c7_counterexample :
    mapPool 4 (some (-1)) = Except.error "ValueError" ∧
    mapPool 4 (some (-1)) ≠ Except.ok 4 := by
  constructor
  · rfl
  · intro h
    rw [show mapPool 4 (some (-1)) = Except.error "ValueError" from rfl] at h
    exact Except.noConfusion h

/-- C7 amended: `map` creates a pool of size `poolSize` when it is
provided and positive; when `poolSize` is absent or zero (both falsy) it
creates a default pool sized to the number of available processing
units; a provided negative `poolSize` is passed through to the pool
constructor, which raises ValueError instead of falling back to the
default. -/
theorem c7_amended (cpu : Nat) (size : Option Int) :
    mapPool cpu size =
      match size with
      | none => Except.ok cpu
      | some n =>
        if n = 0 then Except.ok cpu
        else if n < 1 then Except.error "ValueError"
        else Except.ok n.toNat := by
  cases size with
  | none => rfl
  | some n =>
    by_cases h0 : n = 0
    · subst h0
      rfl
    · have ht : intTruthy (some n) = true := by simp [intTruthy, h0]
      simp [mapPool, ht, poolNew, h0]

/-- C3 counterexample: D = [reqA, reqFail] under `tMix` has exactly
K = 1 failing descriptor and a handler supplied, yet the handler is
invoked 0 times — the first unit is a transport-level success with a
falsy 404 response, so the handler branch reads the never-assigned
`exception` attribute and `map` propagates AttributeError before any
handler call. -/
theorem c3_counterexample :
    Outcome.isFailure (tMix reqA.method reqA.url
      (mergedKwargs reqA.kwargs (streamKw false))) = false ∧
    Outcome.isFailure (tMix reqFail.method reqFail.url
      (mergedKwargs reqFail.kwargs (streamKw false))) = true ∧
    (mapRun tMix 4 [reqA, reqFail] false none true).result
      = Except.error "AttributeError" ∧
    (mapRun tMix 4 [reqA, reqFail] false none true).handlerCalls = [] :=
  ⟨rfl, rfl, rfl, rfl⟩

/-- C3 amended: over fresh descriptors whose every successful response
object is truthy, `map` with a handler invokes it exactly K times — K
the number of descriptors whose transport call raised — once per failed
unit, each time with that unit (descriptor intact) and its captured
exception, never for a successful unit; the handler calls never reach
the output, which holds exactly the truthy responses; and likewise
`imap`, in completion order, for any completion order of the same
units. -/
theorem c3_amended (t : Transport) (cpu : Nat) (reqs : List AsyncRequest) (stream : Bool)
    (size : Option Int)
    (hpool : ∃ n, mapPool cpu size = Except.ok n)
    (hfresh : ∀ u ∈ reqs, u.response = none)
    (htruthy : ∀ u ∈ reqs, ∀ r, (send t u stream).response = some r → r.ok = true) :
    (mapRun t cpu reqs stream size true).handlerCalls
      = (reqs.map (fun r => send t r stream)).filterMap failCall ∧
    (mapRun t cpu reqs stream size true).result
      = Except.ok ((reqs.map (fun r => send t r stream)).filterMap successResponse) ∧
    ((reqs.map (fun r => send t r stream)).filterMap failCall).length
      = reqs.countP (fun u =>
          (t u.method u.url (mergedKwargs u.kwargs (streamKw stream))).isFailure) ∧
    ∀ completed, completed.Perm (reqs.map (fun r => send t r stream)) →
      traceHandlerCalls (imapRun true completed) = completed.filterMap failCall ∧
      (completed.filterMap failCall).length
        = reqs.countP (fun u =>
            (t u.method u.url (mergedKwargs u.kwargs (streamKw stream))).isFailure) := by
  obtain ⟨n, hn⟩ := hpool
  have hunits_ok : ∀ u2 ∈ reqs.map (fun r => send t r stream),
      ∀ r2, u2.response = some r2 → r2.ok = true := by
    intro u2 hu2
    obtain ⟨u, hu, rfl⟩ := List.mem_map.mp hu2
    exact htruthy u hu
  have hunits_cl : ∀ u2 ∈ reqs.map (fun r => send t r stream),
      successResponse u2 = none → u2.exception ≠ none := by
    intro u2 hu2
    obtain ⟨u, hu, rfl⟩ := List.mem_map.mp hu2
    exact sent_clean t u stream (htruthy u hu)
  have hm : mapRun t cpu reqs stream size true
      = collect true (reqs.map (fun r => send t r stream)) := by
    simp [mapRun, hn]
  have hc := collect_handler (reqs.map (fun r => send t r stream)) hunits_cl
  have hK := countP_sent_isNone t stream reqs hfresh
  have hlenK := length_filterMap_failCall (reqs.map (fun r => send t r stream))
    hunits_cl hunits_ok
  refine ⟨?_, ?_, ?_, ?_⟩
  · rw [hm, hc]
  · rw [hm, hc]
  · rw [hlenK, hK]
  · intro completed hperm
    have hcl2 : ∀ u2 ∈ completed, successResponse u2 = none → u2.exception ≠ none :=
      fun u2 hu2 => hunits_cl u2 (hperm.mem_iff.mp hu2)
    refine ⟨imap_handlerCalls completed hcl2, ?_⟩
    have hpfm := hperm.filterMap failCall
    rw [hpfm.length_eq, hlenK, hK]

/-- Witness for amended C3: a single failing request with a handler; the
handler-call list is exactly the failed unit paired with its captured
exception. -/
theorem c3_amended_witness :
    (mapRun tFail 4 [reqB] false none true).handlerCalls
      = ([reqB].map (fun r => send tFail r false)).filterMap failCall :=
  (c3_amended tFail 4 [reqB] false none ⟨4, rfl⟩
    (by
      intro u hu
      rw [List.mem_singleton] at hu
      subst hu
      rfl)
    (by
      intro u hu r hr
      rw [List.mem_singleton] at hu
      subst hu
      rw [show (send tFail reqB false).response = none from rfl] at hr
      exact Option.noConfusion hr)).1

/-- C9: `map` and `imap` classify a unit by the truthiness of its
response object, not by slot population — a unit holding a falsy
response (here produced by a transport-level success, so its exception
attribute was never assigned) is routed to the failure branch, where
reading `request.exception` raises AttributeError: `map` propagates it,
and the `imap` generator raises it without yielding or teardown. -/
theorem c9_falsy_response (t : Transport) (cpu : Nat) (stream : Bool) (size : Option Int)
    (u : AsyncRequest) (r : Response)
    (hf1 : u.response = none) (hf2 : u.exception = none)
    (ht : t u.method u.url (mergedKwargs u.kwargs (streamKw stream)) = Outcome.success r)
    (hok : r.ok = false)
    (hpool : ∃ n, mapPool cpu size = Except.ok n) :
    (send t u stream).response = some r ∧
    successResponse (send t u stream) = none ∧
    (send t u stream).exception = none ∧
    (mapRun t cpu [u] stream size true).result = Except.error "AttributeError" ∧
    imapRun true [send t u stream] = [ImapEvent.raised "AttributeError"] := by
  obtain ⟨n, hn⟩ := hpool
  have hsend : send t u stream = { u with response := some r } := by
    simp [send, AsyncRequest.send, ht]
  have hresp : (send t u stream).response = some r := by rw [hsend]
  have hsr : successResponse (send t u stream) = none := by
    simp [successResponse, hresp, hok]
  have hexc : (send t u stream).exception = none := by
    rw [hsend]
    exact hf2
  refine ⟨hresp, hsr, hexc, ?_, ?_⟩
  · have hm : mapRun t cpu [u] stream size true = collect true [send t u stream] := by
      simp [mapRun, hn]
    rw [hm]
    simp [collect, hsr, hexc]
  · simp [imapRun, hsr, hexc]

/-- Witness for C9 at a concrete 404 success with a handler present. -/
theorem c9_falsy_response_witness :
    (mapRun t404 4 [reqB] false none true).result = Except.error "AttributeError" :=
  (c9_falsy_response t404 4 false none reqB { status := 404, body := "not found" }
    rfl rfl rfl rfl ⟨4, rfl⟩).2.2.2.1

/-- C6 counterexample: a consumer of `imap` over two truthy successes
who pulls once and then stops pulling: the trace has 2 yields pending,
the consumer executes only the first yield, and neither `pool.close()`
nor `pool.join()` is ever executed — the teardown statements sit after
the loop with no guaranteed-cleanup construct around them, so workers
are leaked on early abandonment. -/
theorem c6_counterexample :
    countYields (imapRun false [send tOk reqA false, send tOk reqB false]) = 2 ∧
    upToYields 1 (imapRun false [send tOk reqA false, send tOk reqB false])
      = [ImapEvent.yielded { status := 200, body := "ok" }] ∧
    (upToYields 1 (imapRun false [send tOk reqA false, send tOk reqB false])).all
      (fun e => !e.isTeardown) = true :=
  ⟨rfl, rfl, rfl⟩

/-- C6 amended: over completed units whose exception slot is populated
whenever the truthiness test fails (so the generator itself does not
raise), the full generator body ends with `pool.close()` then
`pool.join()`; a consumer who keeps pulling past the final yield
executes that whole body, teardown included, before the generator
terminates — but a consumer who stops pulling while yields remain never
executes any teardown event. -/
theorem c6_amended (hh : Bool) (completed : List AsyncRequest)
    (hok : ∀ u ∈ completed, successResponse u = none → u.exception ≠ none) :
    (∃ evs, imapRun hh completed
      = evs ++ [ImapEvent.poolClose, ImapEvent.poolJoin]) ∧
    upToYields (countYields (imapRun hh completed) + 1) (imapRun hh completed)
      = imapRun hh completed ∧
    ∀ k, k < countYields (imapRun hh completed) →
      (upToYields k (imapRun hh completed)).all (fun e => !e.isTeardown) = true := by
  obtain ⟨evs, hevs, hfree⟩ := imapRun_split hh completed hok
  refine ⟨⟨evs, hevs⟩, ?_, ?_⟩
  · exact upToYields_of_countYields_lt _ _ (Nat.lt_succ_self _)
  · intro k hk
    have hcy : countYields (imapRun hh completed) = countYields evs := by
      rw [hevs]
      simp [countYields, List.countP_append, List.countP_cons, ImapEvent.isYield]
    rw [hcy] at hk
    rw [hevs]
    exact upToYields_teardown_free evs [ImapEvent.poolClose, ImapEvent.poolJoin] k hfree hk

/-- Witness for amended C6: one failing unit with a handler; the
exhausting consumer runs the full trace, teardown included. -/
theorem c6_amended_witness :
    upToYields (countYields (imapRun true [send tFail reqFail false]) + 1)
        (imapRun true [send tFail reqFail false])
      = imapRun true [send tFail reqFail false] :=
  (c6_amended true [send tFail reqFail false]
    (by
      intro u hu
      rw [List.mem_singleton] at hu
      subst hu
      intro _
      rw [show (send tFail reqFail false).exception = some "boom" from rfl]
      simp)).2.1

end MRequests
